import Mathlib

/-!
Verification development for the type-inference core of the loopy repository
(`loopy/type_inference.py`).  The Python source is shallowly embedded below:
the element-type model and promotion algebra, the expression type evaluator
(`TypeInferenceMapper`), per-variable inference (`_infer_var_type`) and the
fixed-point driver (`infer_unknown_types_for_a_single_kernel`) are translated
into executable Lean definitions, and the claimed properties are settled as
theorems about those definitions.
-/

namespace Loopy

/-- Elementary numpy scalar dtypes used by the inference core. -/
inductive NpScalar
  | int32 | int64 | uint32 | uint64
  | float32 | float64 | complex64 | complex128
deriving DecidableEq, Repr, Fintype

/-- A numpy dtype: either an elementary scalar (`fields is None`) or a
structured dtype (`fields is not None`, used for vector types), identified by
its name together with its field layout. -/
inductive NumpyDtype
  | scalar (s : NpScalar)
  | structured (name : String) (fields : List (String × NpScalar))
deriving DecidableEq, Repr

/-- A loopy element type: a numpy-backed type (`NumpyType`) or some other
(non-numpy) `LoopyType` identified by name. -/
inductive LoopyType
  | numpy (d : NumpyDtype)
  | nonNumpy (name : String)
deriving DecidableEq, Repr

def LoopyType.isNumpy : LoopyType → Bool
  | .numpy _ => true
  | .nonNumpy _ => false

/-- `NumpyType.is_integral`: the dtype kind is in "iub".  Modelled from the
spec for `loopy.types` (not under src/): exactly the integer scalars are
integral; floats, complexes, structured and non-numpy types are not. -/
def LoopyType.isIntegral : LoopyType → Bool
  | .numpy (.scalar .int32) => true
  | .numpy (.scalar .int64) => true
  | .numpy (.scalar .uint32) => true
  | .numpy (.scalar .uint64) => true
  | _ => false

/-- numpy's value-free promotion of two elementary scalar dtypes, as computed
by `(np.empty(0, dtype=a) + np.empty(0, dtype=b)).dtype` in
`TypeInferenceMapper.combine`.  This is numpy's `promote_types` table,
transcribed entry by entry for the eight scalar dtypes the source uses. -/
def promote : NpScalar → NpScalar → NpScalar
  | .int32, .int32 => .int32
  | .int32, .int64 => .int64
  | .int32, .uint32 => .int64
  | .int32, .uint64 => .float64
  | .int32, .float32 => .float64
  | .int32, .float64 => .float64
  | .int32, .complex64 => .complex128
  | .int32, .complex128 => .complex128
  | .int64, .int32 => .int64
  | .int64, .int64 => .int64
  | .int64, .uint32 => .int64
  | .int64, .uint64 => .float64
  | .int64, .float32 => .float64
  | .int64, .float64 => .float64
  | .int64, .complex64 => .complex128
  | .int64, .complex128 => .complex128
  | .uint32, .int32 => .int64
  | .uint32, .int64 => .int64
  | .uint32, .uint32 => .uint32
  | .uint32, .uint64 => .uint64
  | .uint32, .float32 => .float64
  | .uint32, .float64 => .float64
  | .uint32, .complex64 => .complex128
  | .uint32, .complex128 => .complex128
  | .uint64, .int32 => .float64
  | .uint64, .int64 => .float64
  | .uint64, .uint32 => .uint64
  | .uint64, .uint64 => .uint64
  | .uint64, .float32 => .float64
  | .uint64, .float64 => .float64
  | .uint64, .complex64 => .complex128
  | .uint64, .complex128 => .complex128
  | .float32, .int32 => .float64
  | .float32, .int64 => .float64
  | .float32, .uint32 => .float64
  | .float32, .uint64 => .float64
  | .float32, .float32 => .float32
  | .float32, .float64 => .float64
  | .float32, .complex64 => .complex64
  | .float32, .complex128 => .complex128
  | .float64, .int32 => .float64
  | .float64, .int64 => .float64
  | .float64, .uint32 => .float64
  | .float64, .uint64 => .float64
  | .float64, .float32 => .float64
  | .float64, .float64 => .float64
  | .float64, .complex64 => .complex128
  | .float64, .complex128 => .complex128
  | .complex64, .int32 => .complex128
  | .complex64, .int64 => .complex128
  | .complex64, .uint32 => .complex128
  | .complex64, .uint64 => .complex128
  | .complex64, .float32 => .complex64
  | .complex64, .float64 => .complex128
  | .complex64, .complex64 => .complex64
  | .complex64, .complex128 => .complex128
  | .complex128, _ => .complex128

/-- numpy's `np.can_cast(from, to)` with the default "safe" casting rule, for
the eight elementary scalar type objects, transcribed from numpy's safe-cast
table (used by the specialization-overwrite check in `map_call`). -/
def canCastScalar : NpScalar → NpScalar → Bool
  | .int32, .int32 => true
  | .int32, .int64 => true
  | .int32, .float64 => true
  | .int32, .complex128 => true
  | .int64, .int64 => true
  | .int64, .float64 => true
  | .int64, .complex128 => true
  | .uint32, .uint32 => true
  | .uint32, .uint64 => true
  | .uint32, .int64 => true
  | .uint32, .float64 => true
  | .uint32, .complex128 => true
  | .uint64, .uint64 => true
  | .uint64, .float64 => true
  | .uint64, .complex128 => true
  | .float32, .float32 => true
  | .float32, .float64 => true
  | .float32, .complex64 => true
  | .float32, .complex128 => true
  | .float64, .float64 => true
  | .float64, .complex128 => true
  | .complex64, .complex64 => true
  | .complex64, .complex128 => true
  | .complex128, .complex128 => true
  | _, _ => false

/-- `np.can_cast(a.dtype.type, b.dtype.type)` as called by the overwrite
check: for structured dtypes the `.type` attribute collapses to `np.void`, so
two structured dtypes are mutually castable, while structured and scalar
never cast into each other. -/
def canCast : NumpyDtype → NumpyDtype → Bool
  | .scalar a, .scalar b => canCastScalar a b
  | .structured _ _, .structured _ _ => true
  | _, _ => false

def split2Go (fuel n : Nat) : Nat × Nat :=
  match fuel with
  | 0 => (0, n)
  | f + 1 =>
    if n % 2 = 0 ∧ n ≠ 0 then
      let p := split2Go f (n / 2)
      (p.1 + 1, p.2)
    else (0, n)

/-- Split a positive natural into (dyadic exponent, odd part):
`n = 2 ^ e * m` with `m` odd (`n` itself is enough fuel, since each step
halves the argument).  Returns `(0, 0)` for `0`. -/
def split2 (n : Nat) : Nat × Nat := split2Go n n

/-- Exact representability of a rational value in IEEE binary32.  Writing a
nonzero dyadic rational uniquely as `± m * 2 ^ e` with `m` odd, the value is a
binary32 float iff `m < 2 ^ 24`, `e ≥ -149` and its magnitude stays below
`2 ^ 128`.  This models the test `np.complex64(expr) == np.complex128(expr)`
in `map_constant`: narrowing a (finite, dyadic) component to complex64
preserves its value exactly when the component is binary32-representable. -/
def isRepF32 (q : ℚ) : Bool :=
  if q = 0 then true
  else
    let pd := split2 q.den
    if pd.2 ≠ 1 then false
    else
      let pn := split2 q.num.natAbs
      decide (pn.2 < 2 ^ 24) && decide (-149 ≤ (pn.1 : Int) - (pd.1 : Int)) &&
        decide (q.num.natAbs < 2 ^ 128 * q.den)

/-- Inference-time failures, mirroring the loopy error taxonomy:
`depFailure` is `DependencyTypeInferenceFailure` (carrying the sorted
unknown-symbol list that forms its message), `tiFailure` is
`TypeInferenceFailure`, the remaining `LoopyError`s are kept structured, and
`crash` stands for a Python-level error (KeyError, AttributeError,
NameError, AssertionError, unpacking errors). -/
inductive TIErr
  | depFailure (symbols : List String)
  | tiFailure (msg : String)
  | overwriteSpecialized
  | couldNotDetermine (name : String) (symbols : List String)
  | multipleReturnValues
  | loopyMsg (msg : String)
  | crash (msg : String)
deriving DecidableEq, Repr

/-- `pytools.is_single_valued`: all elements equal to the first (only ever
called on nonempty lists in `combine`). -/
def singleValued [DecidableEq α] : List α → Bool
  | [] => true
  | x :: xs => xs.all (· = x)

/-- One step of the promotion fold in `TypeInferenceMapper.combine`
(the body of the `while numpy_dtypes:` loop): `result` is the accumulator,
`other` the next popped dtype.  int32/float32 is overridden to float32; a
non-native (structured) dtype always wins over a scalar; two structured
dtypes must be the very same dtype (the source compares with `is`). -/
def combineStep (result other : NumpyDtype) : Except TIErr NumpyDtype :=
  match result, other with
  | .scalar a, .scalar b =>
      if (a = .int32 ∧ b = .float32) ∨ (a = .float32 ∧ b = .int32) then
        .ok (.scalar .float32)
      else .ok (.scalar (promote a b))
  | .scalar _, .structured n f => .ok (.structured n f)
  | .structured n f, .scalar _ => .ok (.structured n f)
  | .structured n f, .structured n' f' =>
      if n = n' ∧ f = f' then .ok (.structured n f)
      else .error (.tiFailure "nothing known about result of operation")

def toNpDtype : LoopyType → Option NumpyDtype
  | .numpy d => some d
  | .nonNumpy _ => none

/-- `TypeInferenceMapper.combine`: merge a list of type sets (each empty or a
singleton).  Non-numpy types must all be identical; otherwise the numpy
dtypes are folded pairwise, popping from the end of the list exactly as the
source's `numpy_dtypes.pop()` loop does. -/
def combine (dtypeSets : List (List LoopyType)) : Except TIErr (List LoopyType) :=
  let dtypes := dtypeSets.flatten
  if ¬ dtypes.all LoopyType.isNumpy then
    if ¬ singleValued dtypes then
      .error (.tiFailure "Nothing known about operations between the dtypes")
    else
      match dtypes with
      | [] => .error (.crash "unreachable")
      | d :: _ => .ok [d]
  else
    let numpyDtypes := dtypes.filterMap toNpDtype
    if numpyDtypes = [] then .ok []
    else if singleValued numpyDtypes then
      match dtypes with
      | [] => .error (.crash "unreachable")
      | d :: _ => .ok [d]
    else
      match numpyDtypes.reverse with
      | [] => .error (.crash "unreachable")
      | r :: rest => do
          let res ← rest.foldlM combineStep r
          .ok [LoopyType.numpy res]

/-- First-match association-list lookup (models Python dict lookup; the
tables the source builds have unique keys). -/
def alookup [DecidableEq κ] : List (κ × ν) → κ → Option ν
  | [], _ => none
  | (a, b) :: r, x => if a = x then some b else alookup r x

/-- The function slot of a pymbolic `Call`: either a `ResolvedFunction` or a
bare `Variable` name. -/
inductive FuncName
  | resolved (name : String)
  | plain (name : String)
deriving DecidableEq, Repr

mutual

/-- The pymbolic expression nodes handled by `TypeInferenceMapper`.
Constants keep the distinctions `map_constant` branches on: Python ints,
Python floats (kind "f"), Python complexes (kind "c") with exact rational
components, and numpy-tagged sized literals.  Child sequences are kept as
the mutual `ExprList` so that equality of expressions (used for the
`old_calls_to_new_calls` dict) stays decidable. -/
inductive Expr
  | var (name : String)
  | constInt (n : Int)
  | constFloat (q : ℚ)
  | constComplex (re im : ℚ)
  | constSized (s : NpScalar)
  | sum (children : ExprList)
  | prod (children : ExprList)
  | quot (num den : Expr)
  | call (fn : FuncName) (params : ExprList)
  | comparison (left : Expr) (op : String) (right : Expr)
  | logicalNot (child : Expr)
  | logicalAnd (children : ExprList)
  | logicalOr (children : ExprList)
  | subscript (agg idx : Expr)
  | lookup (agg : Expr) (field : String)
deriving DecidableEq, Repr

/-- A sequence of sibling sub-expressions. -/
inductive ExprList
  | nil
  | cons (e : Expr) (es : ExprList)
deriving DecidableEq, Repr

end

def ExprList.toList : ExprList → List Expr
  | .nil => []
  | .cons e es => e :: es.toList

def ExprList.ofList : List Expr → ExprList
  | [] => .nil
  | e :: es => .cons e (ExprList.ofList es)

/-- An argument-id-to-dtype mapping: positional ids count from 0, return
slots occupy negative ids from -1 downward; a `none` value records a
still-unknown argument type. -/
abbrev ArgMap := List (Int × Option LoopyType)

/-- Modelled from the spec: a callable descriptor (`InKernelCallable`).  Its
type-specialization behaviour (`with_types`) is looked up by `specKey` in the
kernel's `specEnv`, so descriptors stay comparable data. -/
structure Callable where
  specKey : String
  argIdToDtype : Option ArgMap
deriving DecidableEq, Repr

/-- Modelled from the spec: the `CallablesTable`, a mapping from function
name to callable descriptor plus a counter used to generate fresh
specialization names. -/
structure CallablesTable where
  entries : List (String × Callable)
  counter : Nat
deriving DecidableEq, Repr

def findCallableName : List (String × Callable) → Callable → Option String
  | [], _ => none
  | (n, c) :: r, c' => if c = c' then some n else findCallableName r c'

/-- Modelled from the spec: `CallablesTable.with_callable` stores a
specialized callable and returns the name under which it was stored — an
existing equal descriptor is reused, otherwise a fresh synthetic name is
minted. -/
def CallablesTable.withCallable (t : CallablesTable) (base : String)
    (c : Callable) : CallablesTable × String :=
  match findCallableName t.entries c with
  | some n => (t, n)
  | none =>
      let n := base ++ "_" ++ toString t.counter
      (⟨t.entries ++ [(n, c)], t.counter + 1⟩, n)

/-- Modelled from the spec: `with_added_callable` for legacy
pattern-matched (mangler) callables; same storage discipline. -/
def CallablesTable.withAddedCallable (t : CallablesTable) (base : String)
    (c : Callable) : CallablesTable × String :=
  t.withCallable base c

/-- The result of a function mangler: argument dtypes, result dtypes and a
target name (`loopy`'s `CallMangleInfo`). -/
structure MangleResult where
  argDtypes : List LoopyType
  resultDtypes : List LoopyType
  targetName : String

/-- A single instruction: one assignment `assignee = expr` (the
`lp.Assignment` flavour of `MultiAssignmentBase` that the claims exercise). -/
structure Instr where
  id : String
  assignee : String
  expr : Expr
deriving DecidableEq, Repr

/-- The kernel data consumed by type inference: inames and their index
dtype, domain parameters, argument and temporary dictionaries (name to
optional dtype), the instruction list, the function manglers, the
target-specific symbol table (`kernel.mangle_symbol`), and the modelled
`with_types` behaviour of the callables (`specEnv`, keyed by a callable's
`specKey`). -/
structure Kernel where
  allInames : List String
  indexDtype : LoopyType
  allParams : List String
  argDict : List (String × Option LoopyType)
  tempVars : List (String × Option LoopyType)
  instructions : List Instr
  functionManglers : List (String → List (Option LoopyType) → Option MangleResult)
  symbolTable : String → Option LoopyType
  specEnv : String → ArgMap → Option ArgMap

/-- The mutable pieces of `TypeInferenceMapper`: its callables table and the
accumulators `symbols_with_unknown_types` and `old_calls_to_new_calls`. -/
structure TISt where
  table : CallablesTable
  symbols : List String
  renames : List (Expr × String)
deriving DecidableEq

/-- Add to the `symbols_with_unknown_types` set (first-seen order). -/
def insertSym (l : List String) (s : String) : List String :=
  if s ∈ l then l else l ++ [s]

/-- Set one key of the `old_calls_to_new_calls` dict. -/
def renSet : List (Expr × String) → Expr → String → List (Expr × String)
  | [], e, n => [(e, n)]
  | (a, b) :: t, e, n =>
      if a = e then (a, n) :: t else (a, b) :: renSet t e n

/-- Python `dict.update`: fold the new renames over the old dict. -/
def renMerge (old new : List (Expr × String)) : List (Expr × String) :=
  new.foldl (fun acc p => renSet acc p.1 p.2) old

def strInsSorted (s : String) : List String → List String
  | [] => [s]
  | x :: xs => if compare s x ≠ .gt then s :: x :: xs else x :: strInsSorted s xs

/-- `sorted(...)` on the unknown-symbol set, as used in error messages. -/
def sortStrs (l : List String) : List String := l.foldr strInsSorted []

/-- `.dtype` access on an optional type: `None` or a non-numpy type has no
numpy dtype and crashes with an `AttributeError`. -/
def getNp : Option LoopyType → Except TIErr NumpyDtype
  | none => .error (.crash "AttributeError: dtype of None")
  | some (.numpy d) => .ok d
  | some (.nonNumpy _) => .error (.crash "AttributeError: no numpy dtype")

/-- The no-overwrite check of `map_call` (type_inference.py lines 436-468):
for every argument id of the new mapping that is already recorded with a
different type, the discrepancy is ignored when the recorded type is uint32
against new int32, uint64 against new int64, or when the new type safely
casts into the recorded one; otherwise specialization raises the
"Overwriting a specialized function is illegal" error. -/
def checkOverwrite (recorded : ArgMap) : ArgMap → Except TIErr Unit
  | [] => .ok ()
  | (id, d) :: rest =>
    match alookup recorded id with
    | none => checkOverwrite recorded rest
    | some r =>
      if r = d then checkOverwrite recorded rest
      else
        match getNp r with
        | .error e => .error e
        | .ok rt =>
          match getNp d with
          | .error e => .error e
          | .ok dt =>
            if rt = .scalar .uint32 ∧ dt = .scalar .int32 then
              checkOverwrite recorded rest
            else if rt = .scalar .uint64 ∧ dt = .scalar .int64 then
              checkOverwrite recorded rest
            else if canCast dt rt then checkOverwrite recorded rest
            else .error .overwriteSpecialized

/-- `map_call` continuation for a `ResolvedFunction`: run the overwrite
check, specialize via the callable's `with_types` behaviour, store the
specialization, record the call rename, and read the result type from
return slot -1 (empty set if not yet knowable). -/
def resolvedCallFinish (k : Kernel) (selfExpr : Expr) (fname : String)
    (argIdToDtype : ArgMap) (s : TISt) : Except TIErr (List LoopyType × TISt) :=
  match alookup s.table.entries fname with
  | none => .error (.crash ("KeyError: " ++ fname))
  | some c =>
    let chk : Except TIErr Unit :=
      match c.argIdToDtype with
      | some recorded => checkOverwrite recorded argIdToDtype
      | none => .ok ()
    match chk with
    | .error e => .error e
    | .ok _ =>
      let c' : Callable := { c with argIdToDtype := k.specEnv c.specKey argIdToDtype }
      let tn := s.table.withCallable fname c'
      let s' : TISt := { s with table := tn.1, renames := renSet s.renames selfExpr tn.2 }
      match c'.argIdToDtype with
      | none => .ok ([], s')
      | some m =>
        match alookup m (-1) with
        | some (some t) => .ok ([t], s')
        | _ => .ok ([], s')

def firstMangle (ms : List (String → List (Option LoopyType) → Option MangleResult))
    (f : String) (ads : List (Option LoopyType)) : Option MangleResult :=
  match ms with
  | [] => none
  | m :: rest =>
    match m f ads with
    | some r => some r
    | none => firstMangle rest f ads

/-- `map_call` continuation for an unresolved bare name: try the kernel's
function manglers on the fully evaluated argument dtypes; a match creates a
`ManglerCallable` stored under a fresh name and records the rename, then
demands exactly one return value in scalar mode; no match contributes the
empty type set. -/
def plainCallFinish (k : Kernel) (selfExpr : Expr) (fname : String)
    (argDtypes : List (Option LoopyType)) (s : TISt) :
    Except TIErr (List LoopyType × TISt) :=
  match firstMangle k.functionManglers fname argDtypes with
  | none => .ok ([], s)
  | some mr =>
      let argMap : ArgMap :=
        mr.argDtypes.enum.map (fun p => ((p.1 : Int), some p.2)) ++
          mr.resultDtypes.enum.map (fun p => (-(p.1 : Int) - 1, some p.2))
      let mc : Callable := { specKey := fname, argIdToDtype := some argMap }
      let tn := s.table.withAddedCallable fname mc
      let s' : TISt := { s with table := tn.1, renames := renSet s.renames selfExpr tn.2 }
      match mr.resultDtypes with
      | [t] => .ok ([t], s')
      | _ => .error .multipleReturnValues

/-- `loopy.tools.is_integer` on an expression child together with the
`abs(child) < 1024` smallness test of `map_sum`. -/
def isSmallIntLit : Expr → Bool
  | .constInt n => n.natAbs < 1024
  | _ => false

/-- The tail of `map_sum` once all children are evaluated: small integer
literal operands are deferred, rejoining the combination only when every
non-deferred known type is integral. -/
def sumCombine (cs : List Expr) (dss : List (List LoopyType)) :
    Except TIErr (List LoopyType) :=
  let pairs := cs.zip dss
  let bigs := (pairs.filter fun p => !(isSmallIntLit p.1)).map Prod.snd
  let smalls := (pairs.filter fun p => isSmallIntLit p.1).map Prod.snd
  let sets := if bigs.all (fun ds => ds.all LoopyType.isIntegral)
    then bigs ++ smalls else bigs
  combine sets

/-- `map_lookup` after the aggregate is evaluated: empty set propagates;
a structured dtype yields the field's dtype, a scalar is a hard lookup
error, a non-numpy type crashes on the `.numpy_dtype` access. -/
def lookupFinish (fieldName : String) (aggRes : List LoopyType) (s : TISt) :
    Except TIErr (List LoopyType × TISt) :=
  match aggRes with
  | [] => .ok ([], s)
  | t :: _ =>
    match t with
    | .numpy (.structured _ fields) =>
        match alookup fields fieldName with
        | some fd => .ok ([.numpy (.scalar fd)], s)
        | none => .error (.loopyMsg ("cannot look up attribute " ++ fieldName))
    | .numpy (.scalar _) =>
        .error (.loopyMsg ("cannot look up attribute " ++ fieldName ++
          " in non-aggregate expression"))
    | .nonNumpy _ => .error (.crash "AttributeError: numpy dtype")

/-- `map_variable`: inames carry the kernel's index dtype; then the
target-specific symbol table; then the mapper's `new_assignments`, the
kernel's arguments and its temporaries.  A known variable without a dtype is
recorded as a symbol with unknown type and yields the empty set. -/
def tiMapVariable (k : Kernel) (na : List (String × Option LoopyType))
    (name : String) (s : TISt) : Except TIErr (List LoopyType × TISt) :=
  if name ∈ k.allInames then .ok ([k.indexDtype], s)
  else
    match k.symbolTable name with
    | some t => .ok ([t], s)
    | none =>
      match (alookup na name).orElse
          (fun _ => (alookup k.argDict name).orElse
            (fun _ => alookup k.tempVars name)) with
      | none => .error (.tiFailure ("name not known in type inference: " ++ name))
      | some none => .ok ([], { s with symbols := insertSym s.symbols name })
      | some (some t) => .ok ([t], s)

mutual

/-- The recursive expression type evaluator (`TypeInferenceMapper.rec`),
threading the mapper state through sub-expression visits.  Note that
`map_logical_not` returns int32 without visiting its child, `map_subscript`
visits only the aggregate, and `map_comparison` visits its operands through
the raising `__call__` wrapper. -/
def tiRec (k : Kernel) (na : List (String × Option LoopyType)) :
    Expr → TISt → Except TIErr (List LoopyType × TISt)
  | .var name, s => tiMapVariable k na name s
  | .constInt n, s =>
      if -(2 ^ 31 : Int) ≤ n ∧ n ≤ 2 ^ 31 - 1 then
        .ok ([.numpy (.scalar .int32)], s)
      else if -(2 ^ 63 : Int) ≤ n ∧ n ≤ 2 ^ 63 - 1 then
        .ok ([.numpy (.scalar .int64)], s)
      else .error (.tiFailure "integer constant too large")
  | .constFloat _, s => .ok ([.numpy (.scalar .float32)], s)
  | .constComplex re im, s =>
      if isRepF32 re && isRepF32 im then .ok ([.numpy (.scalar .complex64)], s)
      else .error (.tiFailure "Complex constant needs to be sized for type inference")
  | .constSized sc, s => .ok ([.numpy (.scalar sc)], s)
  | .sum cs, s =>
      match tiRecChildren k na cs s with
      | .error e => .error e
      | .ok (dss, s') =>
        match sumCombine cs.toList dss with
        | .error e => .error e
        | .ok r => .ok (r, s')
  | .prod cs, s =>
      match tiRecChildren k na cs s with
      | .error e => .error e
      | .ok (dss, s') =>
        match sumCombine cs.toList dss with
        | .error e => .error e
        | .ok r => .ok (r, s')
  | .quot nE dE, s =>
      match tiRec k na nE s with
      | .error e => .error e
      | .ok (nd, s1) =>
        match tiRec k na dE s1 with
        | .error e => .error e
        | .ok (dd, s2) =>
          if (nd ++ dd).all LoopyType.isIntegral then
            .ok ([.numpy (.scalar .float64)], s2)
          else
            match combine [nd, dd] with
            | .error e => .error e
            | .ok r => .ok (r, s2)
  | .call fn params, s =>
      match tiRecChildren k na params s with
      | .error e => .error e
      | .ok (dss, s1) =>
        let argIdToDtype : ArgMap := dss.enum.map fun p => ((p.1 : Int), p.2.head?)
        match fn with
        | .resolved fname =>
            resolvedCallFinish k (.call fn params) fname argIdToDtype s1
        | .plain fname =>
            match tiRecChildren k na params s1 with
            | .error e => .error e
            | .ok (dss2, s2) =>
                plainCallFinish k (.call fn params) fname (dss2.map List.head?) s2
  | .comparison l _ r, s =>
      match tiRec k na l s with
      | .error e => .error e
      | .ok (dl, s1) =>
        match dl with
        | [] => .error (.depFailure (sortStrs s1.symbols))
        | [_] =>
          match tiRec k na r s1 with
          | .error e => .error e
          | .ok (dr, s2) =>
            match dr with
            | [] => .error (.depFailure (sortStrs s2.symbols))
            | [_] => .ok ([.numpy (.scalar .int32)], s2)
            | _ => .error (.crash "too many values to unpack")
        | _ => .error (.crash "too many values to unpack")
  | .logicalNot _, s => .ok ([.numpy (.scalar .int32)], s)
  | .logicalAnd cs, s =>
      match tiRecChildren k na cs s with
      | .error e => .error e
      | .ok (_, s') => .ok ([.numpy (.scalar .int32)], s')
  | .logicalOr cs, s =>
      match tiRecChildren k na cs s with
      | .error e => .error e
      | .ok (_, s') => .ok ([.numpy (.scalar .int32)], s')
  | .subscript agg _, s => tiRec k na agg s
  | .lookup agg fieldName, s =>
      match tiRec k na agg s with
      | .error e => .error e
      | .ok (aggRes, s') => lookupFinish fieldName aggRes s'

/-- Evaluate a list of sub-expressions left to right, collecting their type
sets and threading the state. -/
def tiRecChildren (k : Kernel) (na : List (String × Option LoopyType)) :
    ExprList → TISt → Except TIErr (List (List LoopyType) × TISt)
  | .nil, s => .ok ([], s)
  | .cons e es, s =>
      match tiRec k na e s with
      | .error err => .error err
      | .ok (d, s1) =>
        match tiRecChildren k na es s1 with
        | .error err => .error err
        | .ok (ds, s2) => .ok (d :: ds, s2)

end

section CombineLemmas

theorem promote_comm : ∀ a b : NpScalar, promote a b = promote b a := by decide

theorem combineStep_scalar_symm : ∀ a b : NpScalar,
    (combineStep (.scalar a) (.scalar b)).toOption =
      (combineStep (.scalar b) (.scalar a)).toOption := by decide

theorem combine_pair_ne (d e : NumpyDtype) (h : d ≠ e) :
    combine [[.numpy d], [.numpy e]] =
      match combineStep e d with
      | .ok c => .ok [LoopyType.numpy c]
      | .error er => .error er := by
  simp only [combine, List.flatten, List.all, LoopyType.isNumpy, toNpDtype,
    List.filterMap, singleValued]
  cases hc : combineStep e d <;>
    simp [h, Ne.symm h, hc, List.foldlM] <;> rfl

theorem combineStep_symm (d e : NumpyDtype) :
    (combineStep d e).toOption = (combineStep e d).toOption := by
  cases d with
  | scalar a =>
    cases e with
    | scalar b => exact combineStep_scalar_symm a b
    | structured n f => rfl
  | structured n f =>
    cases e with
    | scalar b => rfl
    | structured n' f' =>
      by_cases hn : n = n' ∧ f = f'
      · obtain ⟨h1, h2⟩ := hn; subst h1; subst h2; rfl
      · have hn' : ¬ (n' = n ∧ f' = f) := by tauto
        simp [combineStep, hn, hn']

theorem combine_toOption_comm (A B : LoopyType) :
    (combine [[A], [B]]).toOption = (combine [[B], [A]]).toOption := by
  rcases A with d | n <;> rcases B with e | m
  · by_cases h : d = e
    · subst h; rfl
    · rw [combine_pair_ne d e h, combine_pair_ne e d (Ne.symm h)]
      have hsym := combineStep_symm e d
      cases h1 : combineStep e d <;> cases h2 : combineStep d e <;>
          simp [h1, h2, Except.toOption] at hsym ⊢ <;> simp [hsym]
  · rfl
  · rfl
  · by_cases h : n = m
    · subst h; rfl
    · simp only [combine, singleValued, List.flatten, List.cons_append,
        List.nil_append, List.append_nil, List.all_cons, List.all_nil,
        LoopyType.isNumpy, Bool.and_true, Bool.and_false, Bool.true_and]
      simp [h, Ne.symm h, Except.toOption]

theorem except_ok_congr {ε α : Type} (x y : Except ε α)
    (h : x.toOption = y.toOption) (r : α) : x = .ok r ↔ y = .ok r := by
  cases x <;> cases y <;> simp [Except.toOption] at h ⊢ <;> simp [h]

end CombineLemmas

/-- C7: the type combination operation is symmetric on singleton type sets:
for every pair of element types A and B and every result r, combining
[A] with [B] succeeds with result r exactly when combining [B] with [A]
does — so successes agree (including under the int32/float32 override and
the structured/non-native override, both covered by the case analysis over
all element types) and failures are mutual. -/
theorem claim_C7_combine_symmetric (A B : LoopyType) (r : List LoopyType) :
    combine [[A], [B]] = .ok r ↔ combine [[B], [A]] = .ok r :=
  except_ok_congr _ _ (combine_toOption_comm A B) r

theorem tiRec_constInt_small (k : Kernel) (na : List (String × Option LoopyType))
    (j : Int) (s : TISt) (hj : j.natAbs < 2 ^ 31) :
    tiRec k na (.constInt j) s = .ok ([.numpy (.scalar .int32)], s) := by
  simp only [tiRec]
  rw [if_pos (show -(2 ^ 31 : Int) ≤ j ∧ j ≤ 2 ^ 31 - 1 by omega)]

/-- C4: in a quotient, if the two operands evaluate to integral element
types the result is the 64-bit float element type (true-division
semantics), never an integer type; if any known operand type is
non-integral, the result is exactly what the general combination rule
yields on the two operand type sets. -/
theorem claim_C4_quotient_semantics (k : Kernel)
    (na : List (String × Option LoopyType)) (e1 e2 : Expr) (s s1 s2 : TISt)
    (nd dd : List LoopyType)
    (h1 : tiRec k na e1 s = .ok (nd, s1))
    (h2 : tiRec k na e2 s1 = .ok (dd, s2)) :
    ((nd ++ dd).all LoopyType.isIntegral → nd ≠ [] → dd ≠ [] →
      tiRec k na (.quot e1 e2) s = .ok ([.numpy (.scalar .float64)], s2)) ∧
    (¬ ((nd ++ dd).all LoopyType.isIntegral = true) →
      tiRec k na (.quot e1 e2) s =
        match combine [nd, dd] with
        | .ok r => .ok (r, s2)
        | .error er => .error er) := by
  constructor
  · intro hall _ _
    simp [tiRec, h1, h2, hall]
  · intro hnot
    simp [tiRec, h1, h2, hnot]
    cases combine [nd, dd] <;> rfl

/-- C10: a quotient whose two operands both evaluate to the empty type set
(both operand types still unknown) yields the 64-bit float element type
rather than the empty try-again-later set, because the all-operands-integral
test holds vacuously over zero known types. -/
theorem claim_C10_vacuous_quotient (k : Kernel)
    (na : List (String × Option LoopyType)) (e1 e2 : Expr) (s s1 s2 : TISt)
    (h1 : tiRec k na e1 s = .ok ([], s1))
    (h2 : tiRec k na e2 s1 = .ok ([], s2)) :
    tiRec k na (.quot e1 e2) s = .ok ([.numpy (.scalar .float64)], s2) := by
  simp [tiRec, h1, h2]

/-- A plain kernel used to exercise the evaluator: an argument `x` of known
type float32 and an argument `u` with unknown type. -/
def kPlain : Kernel :=
  { allInames := [], indexDtype := .numpy (.scalar .int32), allParams := []
    argDict := [("x", some (.numpy (.scalar .float32))), ("u", none)]
    tempVars := [], instructions := []
    functionManglers := [], symbolTable := fun _ => none
    specEnv := fun _ _ => none }

/-- A fresh mapper state over an empty callables table. -/
def st0 : TISt := ⟨⟨[], 0⟩, [], []⟩

/-- The mapper state after `u` has been recorded as a symbol with unknown
type. -/
def st0u : TISt := ⟨⟨[], 0⟩, ["u"], []⟩

/-- C10 witness: dividing the unknown-typed variable `u` by itself — both
operand type sets empty — yields float64, not the empty set. -/
theorem claim_C10_witness :
    tiRec kPlain [] (.quot (.var "u") (.var "u")) st0 =
      .ok ([.numpy (.scalar .float64)], st0u) :=
  claim_C10_vacuous_quotient kPlain [] (.var "u") (.var "u") st0 st0u st0u rfl rfl

/-- C4 witness: 5 / 7 (both int32) infers float64; a float32 numerator
falls back to the general combination of the two operand type sets. -/
theorem claim_C4_witness :
    tiRec kPlain [] (.quot (.constInt 5) (.constInt 7)) st0 =
      .ok ([.numpy (.scalar .float64)], st0) ∧
    tiRec kPlain [] (.quot (.constFloat (1 / 2)) (.constInt 7)) st0 =
      (match combine [[.numpy (.scalar .float32)], [.numpy (.scalar .int32)]] with
        | .ok r => .ok (r, st0)
        | .error er => .error er) :=
  ⟨(claim_C4_quotient_semantics kPlain [] (.constInt 5) (.constInt 7) st0 st0 st0
      [.numpy (.scalar .int32)] [.numpy (.scalar .int32)] rfl rfl).1
      (by decide) (by decide) (by decide),
   (claim_C4_quotient_semantics kPlain [] (.constFloat (1 / 2)) (.constInt 7)
      st0 st0 st0 [.numpy (.scalar .float32)] [.numpy (.scalar .int32)]
      rfl rfl).2 (by decide)⟩

/-- C5: small integer literal operands (absolute value below 1024) in a sum
are deferred from promotion: an operand of known type float32 plus a small
integer literal stays float32; a sum of two small integer literals yields
int32, the narrowest type of the source's signed ladder (int32, int64)
containing such values. -/
theorem claim_C5_small_int_deferral (k : Kernel)
    (na : List (String × Option LoopyType)) (e : Expr) (m n : Int)
    (s s' : TISt) :
    (n.natAbs < 1024 →
      tiRec k na e s = .ok ([.numpy (.scalar .float32)], s') →
      tiRec k na (.sum (.cons e (.cons (.constInt n) .nil))) s =
        .ok ([.numpy (.scalar .float32)], s')) ∧
    (m.natAbs < 1024 → n.natAbs < 1024 →
      tiRec k na (.sum (.cons (.constInt m) (.cons (.constInt n) .nil))) s =
        .ok ([.numpy (.scalar .int32)], s)) := by
  constructor
  · intro hn he
    have hesmall : isSmallIntLit e = false := by
      cases e with
      | constInt j =>
        by_cases hj : j.natAbs < 1024
        · exfalso
          rw [tiRec_constInt_small k na j s (by omega)] at he
          simp at he
        · simp [isSmallIntLit, hj]
      | _ => rfl
    have hnsmall : isSmallIntLit (.constInt n) = true := by simp [isSmallIntLit, hn]
    have hcn := tiRec_constInt_small k na n s' (by omega)
    have hch : tiRecChildren k na (.cons e (.cons (.constInt n) .nil)) s =
        .ok ([[.numpy (.scalar .float32)], [.numpy (.scalar .int32)]], s') := by
      simp only [tiRecChildren, he, hcn]
    conv_lhs => rw [tiRec]
    rw [hch]
    simp [sumCombine, ExprList.toList, hesmall, hnsmall, LoopyType.isIntegral,
      combine, singleValued, toNpDtype, LoopyType.isNumpy]
  · intro hm hn
    have hmsmall : isSmallIntLit (.constInt m) = true := by simp [isSmallIntLit, hm]
    have hnsmall : isSmallIntLit (.constInt n) = true := by simp [isSmallIntLit, hn]
    have hcm := tiRec_constInt_small k na m s (by omega)
    have hcn := tiRec_constInt_small k na n s (by omega)
    have hch : tiRecChildren k na (.cons (.constInt m) (.cons (.constInt n) .nil)) s =
        .ok ([[.numpy (.scalar .int32)], [.numpy (.scalar .int32)]], s) := by
      simp only [tiRecChildren, hcm, hcn]
    conv_lhs => rw [tiRec]
    rw [hch]
    simp [sumCombine, ExprList.toList, hmsmall, hnsmall, LoopyType.isIntegral,
      combine, singleValued, toNpDtype, LoopyType.isNumpy]

/-- C5 witness: x + 2 with x float32 stays float32; 1 + 2 infers int32. -/
theorem claim_C5_witness :
    tiRec kPlain [] (.sum (.cons (.var "x") (.cons (.constInt 2) .nil))) st0 =
      .ok ([.numpy (.scalar .float32)], st0) ∧
    tiRec kPlain [] (.sum (.cons (.constInt 1) (.cons (.constInt 2) .nil))) st0 =
      .ok ([.numpy (.scalar .int32)], st0) :=
  ⟨(claim_C5_small_int_deferral kPlain [] (.var "x") 1 2 st0 st0).1 (by decide) rfl,
   (claim_C5_small_int_deferral kPlain [] (.var "x") 1 2 st0 st0).2
      (by decide) (by decide)⟩

/-- C6: a complex constant without an explicit sized tag is typed complex64
exactly when both components are preserved by narrowing to binary32 (the
source's test that the complex64 and complex128 conversions are equal), and
otherwise evaluation raises a type-inference failure demanding a sized
literal instead of guessing a width. -/
theorem claim_C6_complex_constant (k : Kernel)
    (na : List (String × Option LoopyType)) (re im : ℚ) (s : TISt) :
    (tiRec k na (.constComplex re im) s = .ok ([.numpy (.scalar .complex64)], s)
      ↔ (isRepF32 re = true ∧ isRepF32 im = true)) ∧
    (¬ (isRepF32 re = true ∧ isRepF32 im = true) →
      tiRec k na (.constComplex re im) s =
        .error (.tiFailure "Complex constant needs to be sized for type inference")) := by
  rcases hre : isRepF32 re <;> rcases him : isRepF32 im <;>
    simp [tiRec, hre, him]

/-- C6 witness: the literal 1j is typed complex64; a literal whose real
component (2^30 + 1) / 2^60 (that is, 2^-30 + 2^-60) is float64-exact but
not float32-representable raises the sizing failure. -/
theorem claim_C6_witness :
    tiRec kPlain [] (.constComplex 0 1) st0 =
      .ok ([.numpy (.scalar .complex64)], st0) ∧
    tiRec kPlain [] (.constComplex (mkRat (2 ^ 30 + 1) (2 ^ 60)) 0) st0 =
      .error (.tiFailure "Complex constant needs to be sized for type inference") :=
  ⟨(claim_C6_complex_constant kPlain [] 0 1 st0).1.mpr ⟨by decide, by decide⟩,
   (claim_C6_complex_constant kPlain [] (mkRat (2 ^ 30 + 1) (2 ^ 60)) 0 st0).2
      (by decide)⟩

/-- C8 counterexample: the claim says the operand sub-expressions of every
comparison and logical node are still visited.  Visiting the unknown-typed
variable `u` observably extends the unknown-symbols accumulator (first
conjunct) and makes a comparison raise a dependency failure naming it
(third conjunct), but `map_logical_not` returns int32 with the state
untouched — its operand is not visited (second conjunct). -/
theorem claim_C8_counterexample :
    tiRec kPlain [] (.var "u") st0 = .ok ([], st0u) ∧
    tiRec kPlain [] (.logicalNot (.var "u")) st0 =
      .ok ([.numpy (.scalar .int32)], st0) ∧
    tiRec kPlain [] (.comparison (.var "u") "==" (.var "u")) st0 =
      .error (.depFailure ["u"]) :=
  ⟨rfl, rfl, rfl⟩

/-- C8 (amended): comparison, logical-and and logical-or all evaluate to the
kernel-fixed signed 32-bit integer element type with their operands visited
(the result state is the state produced by evaluating the operands in
order); logical-not also evaluates to int32 but does so without visiting
its operand (the state is returned unchanged). -/
theorem claim_C8_logical_int32 (k : Kernel)
    (na : List (String × Option LoopyType)) (l r : Expr) (op : String)
    (cs : ExprList) (s s1 s2 : TISt) (tl tr : LoopyType)
    (dss : List (List LoopyType)) :
    (tiRec k na l s = .ok ([tl], s1) → tiRec k na r s1 = .ok ([tr], s2) →
      tiRec k na (.comparison l op r) s = .ok ([.numpy (.scalar .int32)], s2)) ∧
    (tiRecChildren k na cs s = .ok (dss, s1) →
      tiRec k na (.logicalAnd cs) s = .ok ([.numpy (.scalar .int32)], s1)) ∧
    (tiRecChildren k na cs s = .ok (dss, s1) →
      tiRec k na (.logicalOr cs) s = .ok ([.numpy (.scalar .int32)], s1)) ∧
    (tiRec k na (.logicalNot l) s = .ok ([.numpy (.scalar .int32)], s)) := by
  refine ⟨?_, ?_, ?_, ?_⟩
  · intro h1 h2
    conv_lhs => rw [tiRec]
    simp [h1, h2]
  · intro hc
    conv_lhs => rw [tiRec]
    simp [hc]
  · intro hc
    conv_lhs => rw [tiRec]
    simp [hc]
  · rw [tiRec]

/-- C8 witness: a comparison of float32 x with a small literal yields int32
through operand visits, and similarly for the logical nodes. -/
theorem claim_C8_witness :
    tiRec kPlain [] (.comparison (.var "x") "==" (.constInt 1)) st0 =
      .ok ([.numpy (.scalar .int32)], st0) ∧
    tiRec kPlain [] (.logicalAnd (.cons (.var "x") .nil)) st0 =
      .ok ([.numpy (.scalar .int32)], st0) ∧
    tiRec kPlain [] (.logicalOr (.cons (.var "x") .nil)) st0 =
      .ok ([.numpy (.scalar .int32)], st0) :=
  ⟨(claim_C8_logical_int32 kPlain [] (.var "x") (.constInt 1) "=="
      (.cons (.var "x") .nil) st0 st0 st0 (.numpy (.scalar .float32))
      (.numpy (.scalar .int32)) [[.numpy (.scalar .float32)]]).1 rfl rfl,
   (claim_C8_logical_int32 kPlain [] (.var "x") (.constInt 1) "=="
      (.cons (.var "x") .nil) st0 st0 st0 (.numpy (.scalar .float32))
      (.numpy (.scalar .int32)) [[.numpy (.scalar .float32)]]).2.1 rfl,
   (claim_C8_logical_int32 kPlain [] (.var "x") (.constInt 1) "=="
      (.cons (.var "x") .nil) st0 st0 st0 (.numpy (.scalar .float32))
      (.numpy (.scalar .int32)) [[.numpy (.scalar .float32)]]).2.2.1 rfl⟩


theorem alookup_mem [DecidableEq κ] (l : List (κ × ν)) (a : κ) (v : ν)
    (h : alookup l a = some v) : (a, v) ∈ l := by
  induction l with
  | nil => simp [alookup] at h
  | cons p rest ih =>
    obtain ⟨b, w⟩ := p
    by_cases hb : b = a
    · subst hb
      simp [alookup] at h
      simp [h]
    · simp [alookup, hb] at h
      exact List.mem_cons_of_mem _ (ih h)

def scalarMap (m : ArgMap) : Prop :=
  ∀ p ∈ m, ∃ sc : NpScalar, p.2 = some (.numpy (.scalar sc))

instance (m : ArgMap) : Decidable (scalarMap m) := by
  unfold scalarMap; infer_instance

/-- The condition under which the overwrite check treats a recorded scalar
type `a` and a new scalar type `b` at the same argument id as an illegal
overwrite: they differ, neither uint32-to-int32 nor uint64-to-int64 applies,
and `b` does not safely cast into `a`. -/
def badPair (a b : NpScalar) : Prop :=
  a ≠ b ∧ ¬ (a = .uint32 ∧ b = .int32) ∧ ¬ (a = .uint64 ∧ b = .int64) ∧
    canCastScalar b a = false

instance (a b : NpScalar) : Decidable (badPair a b) := by
  unfold badPair; infer_instance

/-- Some argument id carries an illegal overwrite between `recorded` and the
new map. -/
def hasBadId (recorded m : ArgMap) : Prop :=
  ∃ id a b, alookup recorded id = some (some (.numpy (.scalar a))) ∧
    (id, some (LoopyType.numpy (.scalar b))) ∈ m ∧ badPair a b

theorem hasBadId_cons (recorded : ArgMap) (id0 : Int) (d0 : Option LoopyType)
    (rest : ArgMap) :
    hasBadId recorded ((id0, d0) :: rest) ↔
      (∃ a b, d0 = some (.numpy (.scalar b)) ∧
        alookup recorded id0 = some (some (.numpy (.scalar a))) ∧ badPair a b) ∨
      hasBadId recorded rest := by
  constructor
  · rintro ⟨id, a, b, h1, h2, h3⟩
    rcases List.mem_cons.mp h2 with hh | ht
    · left
      have hid : id = id0 := by have := congrArg Prod.fst hh; simpa using this
      have hdv : d0 = some (LoopyType.numpy (.scalar b)) := by
        have := congrArg Prod.snd hh; simp at this; rw [this]
      subst hid
      exact ⟨a, b, hdv, h1, h3⟩
    · exact Or.inr ⟨id, a, b, h1, ht, h3⟩
  · rintro (⟨a, b, h1, h2, h3⟩ | ⟨id, a, b, h1, h2, h3⟩)
    · exact ⟨id0, a, b, h2, by simp [h1], h3⟩
    · exact ⟨id, a, b, h1, List.mem_cons_of_mem _ h2, h3⟩

theorem checkOverwrite_cons_none (recorded : ArgMap) (id : Int)
    (d : Option LoopyType) (rest : ArgMap) (h : alookup recorded id = none) :
    checkOverwrite recorded ((id, d) :: rest) = checkOverwrite recorded rest := by
  simp [checkOverwrite, h]

theorem checkOverwrite_cons_eq (recorded : ArgMap) (id : Int)
    (d : Option LoopyType) (rest : ArgMap) (h : alookup recorded id = some d) :
    checkOverwrite recorded ((id, d) :: rest) = checkOverwrite recorded rest := by
  simp [checkOverwrite, h]

theorem checkOverwrite_cons_scalar (recorded : ArgMap) (id : Int) (a b : NpScalar)
    (rest : ArgMap)
    (h : alookup recorded id = some (some (.numpy (.scalar a))))
    (hne : a ≠ b) :
    checkOverwrite recorded ((id, some (.numpy (.scalar b))) :: rest) =
      if a = .uint32 ∧ b = .int32 then checkOverwrite recorded rest
      else if a = .uint64 ∧ b = .int64 then checkOverwrite recorded rest
      else if canCastScalar b a then checkOverwrite recorded rest
      else .error .overwriteSpecialized := by
  simp [checkOverwrite, h, hne, getNp, canCast]

theorem overwrite_iff (recorded : ArgMap) (hrec : scalarMap recorded) :
    ∀ newMap : ArgMap, scalarMap newMap →
    (checkOverwrite recorded newMap = .error .overwriteSpecialized ↔
      hasBadId recorded newMap) := by
  intro newMap
  induction newMap with
  | nil => intro _; simp [checkOverwrite, hasBadId]
  | cons p rest ih =>
    intro hnew
    obtain ⟨id0, d0⟩ := p
    obtain ⟨b0, hb0⟩ := hnew (id0, d0) (List.mem_cons_self _ _)
    simp only at hb0
    subst hb0
    have hrest : scalarMap rest := fun q hq => hnew q (List.mem_cons_of_mem _ hq)
    have ihr := ih hrest
    rw [hasBadId_cons]
    have hheadiff : (∃ a b, (some (LoopyType.numpy (.scalar b0)) : Option LoopyType)
        = some (.numpy (.scalar b)) ∧
        alookup recorded id0 = some (some (.numpy (.scalar a))) ∧ badPair a b) ↔
        (∃ a, alookup recorded id0 = some (some (.numpy (.scalar a))) ∧ badPair a b0) := by
      constructor
      · rintro ⟨a, b, h1, h2, h3⟩
        have hb : b0 = b := by simpa using h1
        subst hb
        exact ⟨a, h2, h3⟩
      · rintro ⟨a, h2, h3⟩
        exact ⟨a, b0, rfl, h2, h3⟩
    rw [hheadiff]
    cases hrl : alookup recorded id0 with
    | none =>
      rw [checkOverwrite_cons_none recorded id0 _ rest hrl, ihr]
      simp
    | some r =>
      obtain ⟨a0, ha0⟩ := hrec (id0, r) (alookup_mem _ _ _ hrl)
      simp only at ha0
      subst ha0
      have hheadiff2 : (∃ a, (some (some (LoopyType.numpy (.scalar a0))) :
          Option (Option LoopyType)) = some (some (.numpy (.scalar a))) ∧
          badPair a b0) ↔ badPair a0 b0 := by
        constructor
        · rintro ⟨a, h2, h3⟩
          have ha : a0 = a := by simpa using h2
          rw [ha]; exact h3
        · intro h3; exact ⟨a0, rfl, h3⟩
      rw [hheadiff2]
      by_cases hab : a0 = b0
      · subst hab
        rw [checkOverwrite_cons_eq recorded id0 _ rest hrl, ihr]
        have : ¬ badPair a0 a0 := fun hb => hb.1 rfl
        tauto
      · rw [checkOverwrite_cons_scalar recorded id0 a0 b0 rest hrl hab]
        by_cases hs1 : a0 = .uint32 ∧ b0 = .int32
        · rw [if_pos hs1, ihr]
          have : ¬ badPair a0 b0 := fun hb => hb.2.1 hs1
          tauto
        · rw [if_neg hs1]
          by_cases hs2 : a0 = .uint64 ∧ b0 = .int64
          · rw [if_pos hs2, ihr]
            have : ¬ badPair a0 b0 := fun hb => hb.2.2.1 hs2
            tauto
          · rw [if_neg hs2]
            cases hcc : canCastScalar b0 a0 with
            | true =>
              rw [if_pos rfl, ihr]
              have : ¬ badPair a0 b0 := fun hb => by
                rw [hb.2.2.2] at hcc; exact Bool.false_ne_true hcc
              tauto
            | false =>
              rw [if_neg Bool.false_ne_true]
              have : badPair a0 b0 := ⟨hab, hs1, hs2, hcc⟩
              simp [this]

/-- A kernel for the specialization scenarios: one int32 argument `v`; the
callable specialization behaviour completes the argument map with an int32
return slot. -/
def kC1a : Kernel :=
  { allInames := [], indexDtype := .numpy (.scalar .int32), allParams := []
    argDict := [("v", some (.numpy (.scalar .int32)))], tempVars := [], instructions := []
    functionManglers := [], symbolTable := fun _ => none
    specEnv := fun _ m => some (m ++ [(-1, some (.numpy (.scalar .int32)))]) }

/-- A callables table in which `f` was first specialized with a uint32
argument in slot 0. -/
def sC1a : TISt :=
  ⟨⟨[("f", ⟨"f", some [(0, some (.numpy (.scalar .uint32)))]⟩)], 0⟩, [], []⟩

/-- A callables table in which `f` was first specialized with a float32
argument in slot 0. -/
def sC1b : TISt :=
  ⟨⟨[("f", ⟨"f", some [(0, some (.numpy (.scalar .float32)))]⟩)], 0⟩, [], []⟩

/-- The call `f(v)` against the already specialized resolved callable. -/
def c1CallExpr : Expr := .call (.resolved "f") (.cons (.var "v") .nil)

/-- C1: re-specializing a resolved callable that already records an
argument-id-to-type mapping raises the overwrite error exactly when some
already-recorded argument id receives a different type that is not covered
by the widening exceptions (uint32-to-int32, uint64-to-int64, or a safe
cast of the new type into the recorded one); concretely, a call passing an
int32 where uint32 was recorded succeeds, while a call passing an int32
where float32 was recorded (no safe widening either way) raises the
overwrite error. -/
theorem claim_C1_overwrite_guard :
    (∀ recorded newMap : ArgMap, scalarMap recorded → scalarMap newMap →
      (checkOverwrite recorded newMap = .error .overwriteSpecialized ↔
        hasBadId recorded newMap)) ∧
    (∃ r s', tiRec kC1a [] c1CallExpr sC1a = .ok (r, s')) ∧
    tiRec kC1a [] c1CallExpr sC1b = .error .overwriteSpecialized :=
  ⟨fun recorded newMap h1 h2 => overwrite_iff recorded h1 newMap h2,
   ⟨_, _, rfl⟩, rfl⟩

/-- C1 witness: the recorded-float32 / new-int32 discrepancy is an illegal
overwrite by the general rule. -/
theorem claim_C1_witness :
    checkOverwrite [((0 : Int), some (.numpy (.scalar .float32)))]
        [((0 : Int), some (.numpy (.scalar .int32)))] =
      .error .overwriteSpecialized :=
  (claim_C1_overwrite_guard.1 _ _ (by decide) (by decide)).2
    ⟨0, .float32, .int32, by decide, by decide, by decide⟩

mutual

/-- All variable names occurring in an expression
(`insn.read_dependency_names` restricted to expression dependencies). -/
def exprVars : Expr → List String
  | .var n => [n]
  | .constInt _ => []
  | .constFloat _ => []
  | .constComplex _ _ => []
  | .constSized _ => []
  | .sum cs => exprVarsList cs
  | .prod cs => exprVarsList cs
  | .quot a b => exprVars a ++ exprVars b
  | .call _ ps => exprVarsList ps
  | .comparison l _ r => exprVars l ++ exprVars r
  | .logicalNot c => exprVars c
  | .logicalAnd cs => exprVarsList cs
  | .logicalOr cs => exprVarsList cs
  | .subscript a i => exprVars a ++ exprVars i
  | .lookup a _ => exprVars a

def exprVarsList : ExprList → List String
  | .nil => []
  | .cons e es => exprVars e ++ exprVarsList es

end

/-- Evaluate the expressions of a list of writer instructions, collecting
the per-writer result type sets (the loop body of `_infer_var_type`). -/
def writerSweep (k : Kernel) (na : List (String × Option LoopyType)) :
    List Instr → TISt → Except TIErr (List (List LoopyType) × TISt)
  | [], s => .ok ([], s)
  | i :: rest, s =>
    match tiRec k na i.expr s with
    | .error e => .error e
    | .ok (d, s1) =>
      match writerSweep k na rest s1 with
      | .error e => .error e
      | .ok (ds, s2) => .ok (d :: ds, s2)

/-- `_infer_var_type`: domain parameters carry the index dtype; otherwise a
fresh mapper copy evaluates every writer instruction of the variable and the
per-writer sets are merged with `combine`.  Returns (result-or-none,
unknown symbols, renames-or-none, updated callables table); a variable with
no writers yields `None` for both the result and the rename dict. -/
def inferVarType (k : Kernel) (name : String)
    (na : List (String × Option LoopyType)) (table : CallablesTable) :
    Except TIErr (Option (List LoopyType) × List String ×
      Option (List (Expr × String)) × CallablesTable) :=
  if name ∈ k.allParams then .ok (some [k.indexDtype], [], some [], table)
  else
    match writerSweep k na (k.instructions.filter (fun i => i.assignee = name))
        ⟨table, [], []⟩ with
    | .error e => .error e
    | .ok (dtypeSets, s) =>
      if dtypeSets.isEmpty then .ok (none, s.symbols, none, s.table)
      else
        match combine dtypeSets with
        | .error e => .error e
        | .ok r => .ok (some r, s.symbols, some s.renames, s.table)

def graphLookup (g : List (String × List String)) (v : String) : List String :=
  (alookup g v).getD []

def dedupStr (l : List String) : List String :=
  l.foldl (fun acc x => if x ∈ acc then acc else acc ++ [x]) []

def reachStep (g : List (String × List String)) (cur : List String) :
    List String :=
  dedupStr (cur ++ cur.foldr (fun v acc => graphLookup g v ++ acc) [])

def reachN (g : List (String × List String)) : Nat → List String → List String
  | 0, cur => cur
  | n + 1, cur => reachN g n (reachStep g cur)

/-- Names reachable from `v` along at least one edge of the graph. -/
def reachable (g : List (String × List String)) (names : List String)
    (v : String) : List String :=
  reachN g names.length (graphLookup g v)

/-- Modelled from the spec: the strongly connected component of `v` in the
dependency graph (members listed in the global name order). -/
def sccOf (g : List (String × List String)) (names : List String)
    (v : String) : List String :=
  names.filter (fun w =>
    v = w ∨ (w ∈ reachable g names v ∧ v ∈ reachable g names w))

def sccReady (g : List (String × List String)) (names : List String)
    (emitted : List String) (v : String) : Bool :=
  (sccOf g names v).all (fun u =>
    (graphLookup g u).all (fun t => t ∈ sccOf g names v ∨ t ∈ emitted))

def computeSccsGo (g : List (String × List String)) (names : List String) :
    Nat → List String → List String → List (List String)
  | 0, _, _ => []
  | fuel + 1, remaining, emitted =>
    match remaining.find? (sccReady g names emitted) with
    | none => []
    | some v =>
      let comp := sccOf g names v
      comp :: computeSccsGo g names fuel
        (remaining.filter (fun x => ¬ x ∈ comp)) (emitted ++ comp)

/-- Modelled from the spec: `loopy.tools.compute_sccs` decomposes the
dependency graph into strongly connected components returned in topological
order, components with no unresolved dependency first. -/
def computeSccs (g : List (String × List String)) (names : List String) :
    List (List String) :=
  computeSccsGo g names names.length names []

/-- The function-local state of
`infer_unknown_types_for_a_single_kernel`: the updated temporary and
argument dictionaries, the driver mapper's callables table, the global
`old_calls_to_new_calls` dict, and the loop-carried Python local
`symbols_with_unavailable_types` (`none` while still unbound). -/
structure DrvSt where
  newTempVars : List (String × Option LoopyType)
  newArgDict : List (String × Option LoopyType)
  table : CallablesTable
  oldCalls : List (Expr × String)
  symVar : Option (List String)
deriving DecidableEq

/-- `_DictUnionView([new_temp_vars, new_arg_dict])`, the mapper's
`new_assignments`. -/
def envOf (d : DrvSt) : List (String × Option LoopyType) :=
  d.newTempVars ++ d.newArgDict

inductive ItemKind
  | temp
  | arg
deriving DecidableEq, Repr

def lookupItem (d : DrvSt) (name : String) :
    Option (Option LoopyType × ItemKind) :=
  match alookup d.newTempVars name with
  | some t => some (t, .temp)
  | none =>
    match alookup d.newArgDict name with
    | some t => some (t, .arg)
    | none => none

def setAssoc (l : List (String × Option LoopyType)) (name : String)
    (v : Option LoopyType) : List (String × Option LoopyType) :=
  l.map (fun p => if p.1 = name then (p.1, v) else p)

def updateVar (d : DrvSt) (kind : ItemKind) (name : String) (t : LoopyType) :
    DrvSt :=
  match kind with
  | .temp => { d with newTempVars := setAssoc d.newTempVars name (some t) }
  | .arg => { d with newArgDict := setAssoc d.newArgDict name (some t) }

/-- The state of one SCC's work-queue loop. -/
structure SccSt where
  queue : List String
  changed : Bool
  failedNames : List String
  drv : DrvSt
deriving DecidableEq

/-- The loop-invariant context of one SCC's work-queue loop. -/
structure SccCtx where
  k : Kernel
  expectCompletion : Bool
  depGraph : List (String × List String)
  varChain : List String

/-- Python `set(queue) == failed_names`. -/
def setEqStr (a b : List String) : Bool :=
  a.all (fun x => b.contains x) && b.all (fun x => a.contains x)

inductive SccOut
  | done (d : DrvSt)
  | next (s : SccSt)
  | fail (e : TIErr)
deriving DecidableEq

/-- The failure tail of the queue-loop body (type_inference.py lines
921-949): a repeated failure gives up — raising the could-not-determine
error (built from the loop-carried unknown-symbol local) when completion is
expected, otherwise breaking out of the SCC; a first failure is remembered,
the all-failed queue is abandoned (an assertion error when completion was
expected), and the name is otherwise requeued. -/
def handleFailure (ctx : SccCtx) (s : SccSt) (name : String) : SccOut :=
  if name ∈ s.failedNames then
    match s.drv.symVar with
    | none => .fail (.crash "NameError: symbols_with_unavailable_types")
    | some syms =>
      if ctx.expectCompletion then .fail (.couldNotDetermine name syms)
      else .done s.drv
  else
    let failed' := name :: s.failedNames
    if setEqStr s.queue failed' then
      if ctx.expectCompletion then .fail (.crash "AssertionError: expect_completion")
      else .done s.drv
    else .next { s with failedNames := failed', queue := s.queue ++ [name] }

/-- The queue-refill step at the top of the `while` loop: an emptied queue
after progress is refilled with the whole component, except that a
singleton component without a self edge is done after one successful pass
(`none` = break out of the loop). -/
def sccRefill (ctx : SccCtx) (s : SccSt) : Option (List String × Bool) :=
  if s.queue = [] ∧ s.changed = true then
    match ctx.varChain with
    | [v] =>
      if v ∈ graphLookup ctx.depGraph v then some (ctx.varChain, false)
      else none
    | _ => some (ctx.varChain, false)
  else some (s.queue, s.changed)

/-- Process one popped name (`s.queue` already holds the remaining queue):
infer its type and either record success — updating the dictionaries on a
changed dtype, merging the sweep's renames into the global dict and
resetting the failure markers — or run the failure tail.  A
`DependencyTypeInferenceFailure` from the sweep leaves the loop-carried
locals unchanged. -/
def sccProcessName (ctx : SccCtx) (s : SccSt) (name : String) : SccOut :=
  match lookupItem s.drv name with
  | none => .fail (.crash "KeyError: item lookup")
  | some (curDtype, kind) =>
    match inferVarType ctx.k name (envOf s.drv) s.drv.table with
    | .error (.depFailure _) => handleFailure ctx s name
    | .error e => .fail e
    | .ok (resOpt, syms, rensOpt, table') =>
      let s1 : SccSt := { s with
          drv := { s.drv with table := table', symVar := some syms } }
      match resOpt with
      | some (newDtype :: moreDtypes) =>
        if moreDtypes ≠ [] then .fail (.crash "ValueError: unpack")
        else
          let changedNow : Bool := decide (some newDtype ≠ curDtype)
          let drv1 := if changedNow then updateVar s1.drv kind name newDtype
            else s1.drv
          let drv2 := { drv1 with
            oldCalls := renMerge drv1.oldCalls (rensOpt.getD []) }
          .next { s1 with
              changed := s1.changed || changedNow
              failedNames := []
              drv := drv2 }
      | _ => handleFailure ctx s1 name

/-- One iteration of the SCC work-queue `while` loop (type_inference.py
lines 873-952): exit when the queue is empty with no progress; refill an
emptied queue after progress; pop a name and process it. -/
def sccStep (ctx : SccCtx) (s : SccSt) : SccOut :=
  if s.queue = [] ∧ s.changed = false then .done s.drv
  else
    match sccRefill ctx s with
    | none => .done s.drv
    | some (queue, changed) =>
      match queue with
      | [] => .fail (.crash "IndexError: pop from empty list")
      | name :: rest =>
        sccProcessName ctx { s with queue := rest, changed := changed } name

inductive DriverRes (α : Type)
  | ok (a : α)
  | err (e : TIErr)
  | outOfFuel
deriving DecidableEq

/-- Run one SCC's work-queue loop, spending one unit of fuel per
iteration. -/
def sccLoop (ctx : SccCtx) : Nat → SccSt → DriverRes DrvSt
  | 0, _ => .outOfFuel
  | fuel + 1, s =>
    match sccStep ctx s with
    | .done d => .ok d
    | .fail e => .err e
    | .next s' => sccLoop ctx fuel s'

/-- Process the strongly connected components in order, each with a fresh
queue and failure set. -/
def runSccs (k : Kernel) (expectCompletion : Bool)
    (depGraph : List (String × List String)) (fuel : Nat) :
    List (List String) → DrvSt → DriverRes DrvSt
  | [], d => .ok d
  | chain :: rest, d =>
    match sccLoop ⟨k, expectCompletion, depGraph, chain⟩ fuel
        ⟨chain, false, [], d⟩ with
    | .ok d' => runSccs k expectCompletion depGraph fuel rest d'
    | .err e => .err e
    | .outOfFuel => .outOfFuel

/-- `_instruction_missed_during_inference`, checked against the original
kernel dictionaries: an instruction is revisited only when its assignee's
dtype was not `None` before this inference run. -/
def instructionMissed (k : Kernel) (insn : Instr) : Except TIErr Bool :=
  match alookup k.argDict insn.assignee with
  | some d => .ok d.isSome
  | none =>
    match alookup k.tempVars insn.assignee with
    | some d => .ok d.isSome
    | none => .error (.crash "AssertionError: assignee unknown")

/-- The final dummy pass over every instruction, forcing call resolution
for instructions missed during inference; evaluator errors propagate. -/
def dummyPass (k : Kernel) (na : List (String × Option LoopyType)) :
    List Instr → TISt → Except TIErr TISt
  | [], s => .ok s
  | insn :: rest, s =>
    match instructionMissed k insn with
    | .error e => .error e
    | .ok true =>
      match tiRec k na insn.expr s with
      | .error e => .error e
      | .ok (_, s') => dummyPass k na rest s'
    | .ok false => dummyPass k na rest s

mutual

/-- `FunctionNameChanger`: replace each recorded call with a call to its
resolved specialized name, rewriting argument sub-expressions recursively. -/
def rewriteExpr (ren : List (Expr × String)) : Expr → Expr
  | .var n => .var n
  | .constInt n => .constInt n
  | .constFloat q => .constFloat q
  | .constComplex re im => .constComplex re im
  | .constSized sc => .constSized sc
  | .sum cs => .sum (rewriteList ren cs)
  | .prod cs => .prod (rewriteList ren cs)
  | .quot a b => .quot (rewriteExpr ren a) (rewriteExpr ren b)
  | .call fn ps =>
    match alookup ren (.call fn ps) with
    | some newName => .call (.resolved newName) (rewriteList ren ps)
    | none => .call fn (rewriteList ren ps)
  | .comparison l op r => .comparison (rewriteExpr ren l) op (rewriteExpr ren r)
  | .logicalNot c => .logicalNot (rewriteExpr ren c)
  | .logicalAnd cs => .logicalAnd (rewriteList ren cs)
  | .logicalOr cs => .logicalOr (rewriteList ren cs)
  | .subscript a i => .subscript (rewriteExpr ren a) (rewriteExpr ren i)
  | .lookup a f => .lookup (rewriteExpr ren a) f

def rewriteList (ren : List (Expr × String)) : ExprList → ExprList
  | .nil => .nil
  | .cons e es => .cons (rewriteExpr ren e) (rewriteList ren es)

end

mutual

/-- Modelled from the spec: `check_functions_are_resolved` demands every
call target be a resolved function. -/
def callsResolved : Expr → Bool
  | .var _ => true
  | .constInt _ => true
  | .constFloat _ => true
  | .constComplex _ _ => true
  | .constSized _ => true
  | .sum cs => callsResolvedList cs
  | .prod cs => callsResolvedList cs
  | .quot a b => callsResolved a && callsResolved b
  | .call (.plain _) _ => false
  | .call (.resolved _) ps => callsResolvedList ps
  | .comparison l _ r => callsResolved l && callsResolved r
  | .logicalNot c => callsResolved c
  | .logicalAnd cs => callsResolvedList cs
  | .logicalOr cs => callsResolvedList cs
  | .subscript a i => callsResolved a && callsResolved i
  | .lookup a _ => callsResolved a

def callsResolvedList : ExprList → Bool
  | .nil => true
  | .cons e es => callsResolved e && callsResolvedList es

end

/-- Names with unknown type: temporaries first (dictionary order), then
arguments. -/
def namesForInference (k : Kernel) : List String :=
  (k.tempVars.filter (fun p => p.2.isNone)).map Prod.fst ++
    (k.argDict.filter (fun p => p.2.isNone)).map Prod.fst

/-- The write-to-read dependency graph over unknown-typed names. -/
def depGraphOf (k : Kernel) : List (String × List String) :=
  (namesForInference k).map (fun w =>
    (w, dedupStr (((k.instructions.filter (fun i => i.assignee = w)).foldr
        (fun i acc => exprVars i.expr ++ acc) []).filter
          (fun r => (namesForInference k).contains r))))

def sccsOf (k : Kernel) : List (List String) :=
  computeSccs (depGraphOf k) (namesForInference k)

def initDrv (k : Kernel) (table : CallablesTable) : DrvSt :=
  ⟨k.tempVars, k.argDict, table, [], none⟩

/-- `infer_unknown_types_for_a_single_kernel`: build the dependency graph
over unknown-typed names, process its SCCs in topological order with the
work-queue loop, run the final dummy pass, merge its renames into the
global dict, rewrite every instruction through the rename mapping and
return the retyped kernel, the final callables table and the rename
mapping (the driver's fuel bounds the number of queue-loop iterations). -/
def inferUnknownTypesForASingleKernel (k : Kernel) (table : CallablesTable)
    (expectCompletion : Bool) (fuel : Nat) :
    DriverRes (Kernel × CallablesTable × List (Expr × String)) :=
  match runSccs k expectCompletion (depGraphOf k) fuel (sccsOf k)
      (initDrv k table) with
  | .err e => .err e
  | .outOfFuel => .outOfFuel
  | .ok d =>
    match dummyPass k (envOf d) k.instructions ⟨d.table, [], []⟩ with
    | .error e => .err e
    | .ok mst =>
      let finalRen := renMerge d.oldCalls mst.renames
      let k' : Kernel := { k with
          tempVars := d.newTempVars
          argDict := d.newArgDict
          instructions := k.instructions.map
            (fun i => { i with expr := rewriteExpr finalRen i.expr }) }
      if expectCompletion &&
          !(k'.instructions.all (fun i => callsResolved i.expr)) then
        .err (.loopyMsg "unresolved function calls remain")
      else .ok (k', mst.table, finalRen)


section RenameLemmas

theorem renSet_isSome_of (r : List (Expr × String)) (e : Expr) (n : String)
    (x : Expr) (h : (alookup r x).isSome) :
    (alookup (renSet r e n) x).isSome := by
  induction r with
  | nil => simp [alookup] at h
  | cons p t ih =>
    obtain ⟨a, b⟩ := p
    by_cases hae : a = e
    · subst hae
      by_cases hax : a = x <;> simp [renSet, alookup, hax] at h ⊢
      exact h
    · by_cases hax : a = x
      · subst hax
        simp [renSet, alookup, hae]
      · simp [renSet, alookup, hax, hae] at h ⊢
        exact ih h

theorem renSet_isSome_self (r : List (Expr × String)) (e : Expr) (n : String) :
    (alookup (renSet r e n) e).isSome := by
  induction r with
  | nil => simp [renSet, alookup]
  | cons p t ih =>
    obtain ⟨a, b⟩ := p
    by_cases hae : a = e <;> simp [renSet, alookup, hae]
    exact ih

theorem renMerge_isSome (new old : List (Expr × String)) (x : Expr)
    (h : (alookup old x).isSome ∨ (alookup new x).isSome) :
    (alookup (renMerge old new) x).isSome := by
  induction new generalizing old with
  | nil =>
    rcases h with h | h
    · simpa [renMerge] using h
    · simp [alookup] at h
  | cons p t ih =>
    obtain ⟨e0, n0⟩ := p
    have step : renMerge old ((e0, n0) :: t) = renMerge (renSet old e0 n0) t := rfl
    rw [step]
    apply ih
    rcases h with h | h
    · exact Or.inl (renSet_isSome_of old e0 n0 x h)
    · by_cases hx : e0 = x
      · subst hx
        exact Or.inl (renSet_isSome_self old e0 n0)
      · right
        simpa [alookup, hx] using h

theorem updateVar_oldCalls (d : DrvSt) (kind : ItemKind) (name : String)
    (t : LoopyType) : (updateVar d kind name t).oldCalls = d.oldCalls := by
  cases kind <;> rfl

theorem handleFailure_oldCalls (ctx : SccCtx) (s : SccSt) (name : String)
    (base : List (Expr × String)) (hb : s.drv.oldCalls = base) :
    (match handleFailure ctx s name with
      | .done d => d.oldCalls = base
      | .next s' => ∀ x, (alookup base x).isSome →
          (alookup s'.drv.oldCalls x).isSome
      | .fail _ => True) := by
  unfold handleFailure
  by_cases h1 : name ∈ s.failedNames
  · rw [if_pos h1]
    cases s.drv.symVar with
    | none => trivial
    | some syms =>
      by_cases h2 : ctx.expectCompletion = true
      · simp [h2]
      · simp [h2, hb]
  · rw [if_neg h1]
    by_cases h2 : setEqStr s.queue (name :: s.failedNames) = true
    · rw [if_pos h2]
      by_cases h3 : ctx.expectCompletion = true
      · simp [h3]
      · simp [h3, hb]
    · rw [if_neg h2]
      intro x hx
      simpa [hb] using hx

theorem sccProcessName_oldCalls (ctx : SccCtx) (s : SccSt) (name : String) :
    (match sccProcessName ctx s name with
      | .done d => d.oldCalls = s.drv.oldCalls
      | .next s' => ∀ x, (alookup s.drv.oldCalls x).isSome →
          (alookup s'.drv.oldCalls x).isSome
      | .fail _ => True) := by
  unfold sccProcessName
  match hl : lookupItem s.drv name with
  | none => trivial
  | some (curDtype, kind) =>
    match hi : inferVarType ctx.k name (envOf s.drv) s.drv.table with
    | .error (.depFailure syms) =>
      exact handleFailure_oldCalls ctx s name s.drv.oldCalls rfl
    | .error (.tiFailure m) => trivial
    | .error .overwriteSpecialized => trivial
    | .error (.couldNotDetermine a b) => trivial
    | .error .multipleReturnValues => trivial
    | .error (.loopyMsg m) => trivial
    | .error (.crash m) => trivial
    | .ok (resOpt, syms, rensOpt, table') =>
      match resOpt with
      | some (newDtype :: moreDtypes) =>
        simp only []
        by_cases hm : moreDtypes = []
        · rw [if_neg (by simp [hm])]
          intro x hx
          apply renMerge_isSome
          left
          split
          · rw [updateVar_oldCalls]
            simpa using hx
          · simpa using hx
        · rw [if_pos (by simp [hm])]
          trivial
      | some [] =>
        exact handleFailure_oldCalls ctx _ name s.drv.oldCalls rfl
      | none =>
        exact handleFailure_oldCalls ctx _ name s.drv.oldCalls rfl

theorem sccStep_oldCalls (ctx : SccCtx) (s : SccSt) :
    (match sccStep ctx s with
      | .done d => d.oldCalls = s.drv.oldCalls
      | .next s' => ∀ x, (alookup s.drv.oldCalls x).isSome →
          (alookup s'.drv.oldCalls x).isSome
      | .fail _ => True) := by
  unfold sccStep
  by_cases hg : s.queue = [] ∧ s.changed = false
  · simp [hg]
  · rw [if_neg hg]
    match sccRefill ctx s with
    | none => simp
    | some (queue, changed) =>
      match queue with
      | [] => trivial
      | name :: rest =>
        exact sccProcessName_oldCalls ctx
          { s with queue := rest, changed := changed } name

theorem sccLoop_oldCalls_mono : ∀ (fuel : Nat) (ctx : SccCtx) (s : SccSt)
    (d' : DrvSt), sccLoop ctx fuel s = .ok d' →
    ∀ x, (alookup s.drv.oldCalls x).isSome → (alookup d'.oldCalls x).isSome := by
  intro fuel
  induction fuel with
  | zero => intro ctx s d' h; simp [sccLoop] at h
  | succ m ih =>
    intro ctx s d' h x hx
    have hp := sccStep_oldCalls ctx s
    rw [sccLoop] at h
    revert h hp
    cases ho : sccStep ctx s with
    | done d =>
      intro h hp
      simp at h
      subst h
      rw [hp]
      exact hx
    | fail e => intro h _; simp at h
    | next s' =>
      intro h hp
      simp only [] at h
      exact ih ctx s' d' h x (hp x hx)

theorem runSccs_oldCalls_mono : ∀ (sccs : List (List String)) (k : Kernel)
    (ec : Bool) (g : List (String × List String)) (fuel : Nat) (d d' : DrvSt),
    runSccs k ec g fuel sccs d = .ok d' →
    ∀ x, (alookup d.oldCalls x).isSome → (alookup d'.oldCalls x).isSome := by
  intro sccs
  induction sccs with
  | nil =>
    intro k ec g fuel d d' h x hx
    simp [runSccs] at h
    subst h
    exact hx
  | cons chain rest ih =>
    intro k ec g fuel d d' h x hx
    rw [runSccs] at h
    revert h
    cases hl : sccLoop ⟨k, ec, g, chain⟩ fuel ⟨chain, false, [], d⟩ with
    | ok dmid =>
      intro h
      simp only [] at h
      exact ih k ec g fuel dmid d' h x (sccLoop_oldCalls_mono fuel _ _ dmid hl x hx)
    | err e => intro h; simp at h
    | outOfFuel => intro h; simp at h

theorem sccStep_success_oldCalls (ctx : SccCtx) (s : SccSt) (name : String)
    (rest : List String) (cur : Option LoopyType) (kind : ItemKind)
    (t : LoopyType) (syms : List String) (rens : List (Expr × String))
    (table' : CallablesTable)
    (hq : s.queue = name :: rest)
    (hl : lookupItem s.drv name = some (cur, kind))
    (hi : inferVarType ctx.k name (envOf s.drv) s.drv.table =
      .ok (some [t], syms, some rens, table')) :
    (match sccStep ctx s with
      | .next s' => ∀ x, (alookup rens x).isSome →
          (alookup s'.drv.oldCalls x).isSome
      | _ => False) := by
  have hrefill : sccRefill ctx s = some (s.queue, s.changed) := by
    unfold sccRefill
    rw [if_neg (by simp [hq])]
  unfold sccStep
  rw [if_neg (by simp [hq]), hrefill]
  simp only []
  rw [hq]
  simp only []
  unfold sccProcessName
  simp only []
  rw [hl, hi]
  simp only []
  rw [if_neg (by simp)]
  intro x hx
  apply renMerge_isSome
  right
  simpa using hx

end RenameLemmas

def i32T : LoopyType := .numpy (.scalar .int32)
def f32T : LoopyType := .numpy (.scalar .float32)
def f64T : LoopyType := .numpy (.scalar .float64)

/-- A kernel scaffold shared by the driver scenarios. -/
def baseK : Kernel :=
  { allInames := [], indexDtype := i32T, allParams := []
    argDict := [], tempVars := [], instructions := []
    functionManglers := [], symbolTable := fun _ => none
    specEnv := fun _ _ => none }

def tEmpty : CallablesTable := ⟨[], 0⟩

/-- C2 amended: rename accumulation through the driver.  First, a
queue-loop iteration that successfully resolves the head of the queue
merges its sweep's renames into the global rename dict, and those keys
survive to the end of the SCC loop.  Second, the keys of the global rename
dict are never dropped across SCCs.  Third, every key accumulated by the
SCC phase appears in the final rename mapping that the driver hands to the
call-site rewriter. -/
theorem claim_C2_rename_accumulation :
    (∀ (ctx : SccCtx) (fuel : Nat) (s : SccSt) (d' : DrvSt) (name : String)
        (rest : List String) (cur : Option LoopyType) (kind : ItemKind)
        (t : LoopyType) (syms : List String) (rens : List (Expr × String))
        (table' : CallablesTable),
      s.queue = name :: rest →
      lookupItem s.drv name = some (cur, kind) →
      inferVarType ctx.k name (envOf s.drv) s.drv.table =
        .ok (some [t], syms, some rens, table') →
      sccLoop ctx (fuel + 1) s = .ok d' →
      ∀ x, (alookup rens x).isSome → (alookup d'.oldCalls x).isSome) ∧
    (∀ (sccs : List (List String)) (k : Kernel) (ec : Bool)
        (g : List (String × List String)) (fuel : Nat) (d d' : DrvSt),
      runSccs k ec g fuel sccs d = .ok d' →
      ∀ x, (alookup d.oldCalls x).isSome → (alookup d'.oldCalls x).isSome) ∧
    (∀ (k : Kernel) (table : CallablesTable) (ec : Bool) (fuel : Nat)
        (d : DrvSt) (k' : Kernel) (tbl : CallablesTable)
        (ren : List (Expr × String)),
      runSccs k ec (depGraphOf k) fuel (sccsOf k) (initDrv k table) = .ok d →
      inferUnknownTypesForASingleKernel k table ec fuel = .ok (k', tbl, ren) →
      ∀ x, (alookup d.oldCalls x).isSome → (alookup ren x).isSome) := by
  refine ⟨?_, ?_, ?_⟩
  · intro ctx fuel s d' name rest cur kind t syms rens table' hq hl hi hrun x hx
    have hp := sccStep_success_oldCalls ctx s name rest cur kind t syms rens
      table' hq hl hi
    rw [sccLoop] at hrun
    revert hrun hp
    cases ho : sccStep ctx s with
    | done d => intro hrun hp; exact hp.elim
    | fail e => intro hrun hp; exact hp.elim
    | next s' =>
      intro hrun hp
      simp only [] at hrun
      exact sccLoop_oldCalls_mono fuel ctx s' d' hrun x (hp x hx)
  · exact fun sccs k ec g fuel d d' h x hx =>
      runSccs_oldCalls_mono sccs k ec g fuel d d' h x hx
  · intro k table ec fuel d k' tbl ren hrun hret x hx
    unfold inferUnknownTypesForASingleKernel at hret
    rw [hrun] at hret
    split at hret
    · simp at hret
    · simp at hret
    · rename_i dmid heq
      injection heq with hdd
      subst hdd
      split at hret
      · simp at hret
      · simp only [] at hret
        split at hret
        · simp at hret
        · simp only [DriverRes.ok.injEq, Prod.mk.injEq] at hret
          obtain ⟨_, _, h3⟩ := hret
          subst h3
          exact renMerge_isSome _ _ x (Or.inl hx)

/-- The call `h(5)` resolved against callable `h`. -/
def c2wCall : Expr := .call (.resolved "h") (.cons (.constInt 5) .nil)

/-- A kernel whose single sweep succeeds while recording a rename: the
specialization completes the argument map with an int32 return slot. -/
def kC2w : Kernel := { baseK with
  argDict := [("a", none)]
  instructions := [⟨"i1", "a", c2wCall⟩]
  specEnv := fun _ m => some (m ++ [(-1, some i32T)]) }

def tC2w : CallablesTable := ⟨[("h", ⟨"h", none⟩)], 0⟩

def tC2wAfter : CallablesTable :=
  ⟨[("h", ⟨"h", none⟩),
    ("h_0", ⟨"h", some [(0, some i32T), (-1, some i32T)]⟩)], 1⟩

/-- The SCC loop's result on `kC2w`: `a` typed int32, the sweep's rename
merged into the global dict. -/
def dC2wFinal : DrvSt :=
  ⟨[], [("a", some i32T)], tC2wAfter, [(c2wCall, "h_0")], some []⟩

/-- C2 witness: on `kC2w`, the successful sweep's rename key survives to
the SCC loop's result. -/
theorem claim_C2_witness :
    (alookup dC2wFinal.oldCalls c2wCall).isSome = true :=
  claim_C2_rename_accumulation.1 ⟨kC2w, false, depGraphOf kC2w, ["a"]⟩ 1
    ⟨["a"], false, [], initDrv kC2w tC2w⟩ dC2wFinal "a" [] none .arg i32T []
    [(c2wCall, "h_0")] tC2wAfter rfl rfl rfl rfl c2wCall (by decide)

/-- The call `f(5)` whose resolved callable never determines a return
type. -/
def c2Call : Expr := .call (.resolved "f") (.cons (.constInt 5) .nil)

/-- A kernel on which every sweep for `a` records a rename for `f(5)` but
yields no type, so `a` stays unresolved. -/
def kC2 : Kernel := { baseK with
  argDict := [("a", none)]
  instructions := [⟨"i1", "a", c2Call⟩] }

def tC2 : CallablesTable := ⟨[("f", ⟨"f", none⟩)], 0⟩

def driverRenames :
    DriverRes (Kernel × CallablesTable × List (Expr × String)) →
      Option (List (Expr × String))
  | .ok (_, _, ren) => some ren
  | _ => none

/-- C2 counterexample: the sweep for the ultimately-unresolved variable `a`
records the rename `f(5) -> f` (first conjunct), but the driver's final
rename mapping is empty (second conjunct): renames from sweeps that yield
no type are discarded by the success-only merge at type_inference.py line
917, and the final forced pass skips instructions whose assignees were
initially untyped, so the claim's "not lost even for variables ultimately
left unresolved" fails. -/
theorem claim_C2_counterexample :
    inferVarType kC2 "a" (envOf (initDrv kC2 tC2)) tC2 =
      .ok (some [], [], some [(c2Call, "f")], tC2) ∧
    driverRenames (inferUnknownTypesForASingleKernel kC2 tC2 false 30) =
      some [] :=
  ⟨rfl, rfl⟩

/-- C3 (amended): when evaluating a name fails for lack of dependency
information (an empty result, not a type error) while the name is already
marked failed — which, since any success clears the failure markers, means
it failed before with no intervening successful evaluation of any name —
the loop gives up on it: with expect_completion the loop raises the
could-not-determine error naming the failing sweep's still-unknown
symbols; without it the loop breaks out of the component, leaving the
variable's recorded type untouched, and the driver continues. -/
theorem claim_C3_repeated_failure_gives_up (ctx : SccCtx) (fuel : Nat)
    (s : SccSt) (name : String) (rest : List String) (cur : Option LoopyType)
    (kind : ItemKind) (resOpt : Option (List LoopyType)) (syms : List String)
    (rensOpt : Option (List (Expr × String))) (table' : CallablesTable)
    (hq : s.queue = name :: rest)
    (hf : name ∈ s.failedNames)
    (hl : lookupItem s.drv name = some (cur, kind))
    (hi : inferVarType ctx.k name (envOf s.drv) s.drv.table =
      .ok (resOpt, syms, rensOpt, table'))
    (hres : resOpt = none ∨ resOpt = some []) :
    (ctx.expectCompletion = true →
      sccLoop ctx (fuel + 1) s = .err (.couldNotDetermine name syms)) ∧
    (ctx.expectCompletion = false →
      sccLoop ctx (fuel + 1) s =
        .ok { s.drv with table := table', symVar := some syms }) := by
  have hrefill : sccRefill ctx s = some (s.queue, s.changed) := by
    unfold sccRefill
    rw [if_neg (by simp [hq])]
  have hstep : sccStep ctx s =
      handleFailure ctx
        { s with
            queue := rest
            drv := { s.drv with table := table', symVar := some syms } } name := by
    unfold sccStep
    rw [if_neg (by simp [hq]), hrefill]
    simp only []
    rw [hq]
    simp only []
    unfold sccProcessName
    simp only []
    rw [hl, hi]
    rcases hres with h | h <;> subst h <;> simp only []
  have hhf : handleFailure ctx
      { s with
          queue := rest
          drv := { s.drv with table := table', symVar := some syms } } name =
      (if ctx.expectCompletion then .fail (.couldNotDetermine name syms)
        else .done { s.drv with table := table', symVar := some syms }) := by
    unfold handleFailure
    rw [if_pos (show name ∈ ({ s with
        queue := rest
        drv := { s.drv with table := table', symVar := some syms } } : SccSt).failedNames from hf)]
  constructor
  · intro hec
    rw [sccLoop, hstep, hhf, if_pos hec]
  · intro hec
    rw [sccLoop, hstep, hhf, if_neg (by simp [hec])]

/-- The mutual-recursion kernel with no externally known type: `a = b`,
`b = a`. -/
def kS2 : Kernel := { baseK with
  argDict := [("a", none), ("b", none)]
  instructions := [⟨"i1", "a", .var "b"⟩, ⟨"i2", "b", .var "a"⟩] }

/-- C3 witness: in the all-unknown cycle, once `a` is marked failed, a
second failing evaluation of `a` makes the loop raise
could-not-determine naming the blocking symbol `b`. -/
theorem claim_C3_witness :
    sccLoop ⟨kS2, true, depGraphOf kS2, ["a", "b"]⟩ 1
      ⟨["a", "b"], false, ["b", "a"],
        ⟨[], [("a", none), ("b", none)], tEmpty, [], some ["a"]⟩⟩ =
    .err (.couldNotDetermine "a" ["b"]) :=
  (claim_C3_repeated_failure_gives_up ⟨kS2, true, depGraphOf kS2, ["a", "b"]⟩
    0 ⟨["a", "b"], false, ["b", "a"],
      ⟨[], [("a", none), ("b", none)], tEmpty, [], some ["a"]⟩⟩
    "a" ["b"] none .arg (some []) ["b"] (some []) tEmpty
    rfl (by decide) rfl rfl (Or.inr rfl)).1 rfl

/-- The chain kernel refuting the per-name reading of the give-up rule:
`x = w`, `w = z`, `z` written both by a float constant and by `x`. -/
def kC3 : Kernel := { baseK with
  argDict := [("x", none), ("w", none), ("z", none)]
  instructions := [
    ⟨"i1", "x", .var "w"⟩,
    ⟨"i2", "w", .var "z"⟩,
    ⟨"i3", "z", .constFloat 0⟩,
    ⟨"i4", "z", .var "x"⟩] }

def ctxC3 : SccCtx := ⟨kC3, true, depGraphOf kC3, ["x", "w", "z"]⟩

def sC3st0 : SccSt := ⟨["x", "w", "z"], false, [], initDrv kC3 tEmpty⟩
def sC3st1 : SccSt :=
  ⟨["w", "z", "x"], false, ["x"],
    ⟨[], [("x", none), ("w", none), ("z", none)], tEmpty, [], some ["w"]⟩⟩
def sC3st2 : SccSt :=
  ⟨["z", "x", "w"], false, ["w", "x"],
    ⟨[], [("x", none), ("w", none), ("z", none)], tEmpty, [], some ["z"]⟩⟩
def sC3st3 : SccSt :=
  ⟨["x", "w"], true, [],
    ⟨[], [("x", none), ("w", none), ("z", some f32T)], tEmpty, [], some ["x"]⟩⟩
def sC3st4 : SccSt :=
  ⟨["w", "x"], true, ["x"],
    ⟨[], [("x", none), ("w", none), ("z", some f32T)], tEmpty, [], some ["w"]⟩⟩

/-- C3 counterexample to the claim as stated: in `kC3`'s single SCC the
name `x` fails at the first iteration (state `sC3st1`: failure markers
`[x]`, `x` still untyped) and fails again at the fourth (state `sC3st4`),
with the only intervening progress made on `z` — so `x` fails twice in a
row with no intervening progress on `x` itself.  The claim then demands a
hard error under expect_completion, but the driver does not give up on
`x` (the success of `z` reset the failure markers) and the complete run
succeeds, typing every variable float32. -/
theorem claim_C3_counterexample :
    sccStep ctxC3 sC3st0 = .next sC3st1 ∧
    sccStep ctxC3 sC3st1 = .next sC3st2 ∧
    sccStep ctxC3 sC3st2 = .next sC3st3 ∧
    sccStep ctxC3 sC3st3 = .next sC3st4 ∧
    inferUnknownTypesForASingleKernel kC3 tEmpty true 40 =
      .ok ({ kC3 with argDict :=
          [("x", some f32T), ("w", some f32T), ("z", some f32T)] },
        tEmpty, []) :=
  ⟨rfl, rfl, rfl, rfl, rfl⟩


/-- The kernel of the diverging run: `a` is written by the constant 5 and
by `g(a)`, where the callable's specialization behaviour maps an int32
argument to a float64 result and a float64 argument to an int32 result, so
every sweep changes `a`'s type and counts as progress. -/
def kC9bad : Kernel := { baseK with
  argDict := [("a", none)]
  instructions := [
    ⟨"i1", "a", .constInt 5⟩,
    ⟨"i2", "a", .call (.resolved "g") (.cons (.var "a") .nil)⟩]
  specEnv := fun _ m =>
    match alookup m 0 with
    | some (some (.numpy (.scalar .int32))) =>
        some [(0, some i32T), (-1, some f64T)]
    | some (some (.numpy (.scalar .float64))) =>
        some [(0, some f64T), (-1, some i32T)]
    | _ => none }

def tC9 : CallablesTable := ⟨[("g", ⟨"g", none⟩)], 0⟩

def c9Call : Expr := .call (.resolved "g") (.cons (.var "a") .nil)

def tC9full : CallablesTable :=
  ⟨[("g", ⟨"g", none⟩),
    ("g_0", ⟨"g", some [(0, some i32T), (-1, some f64T)]⟩),
    ("g_1", ⟨"g", some [(0, some f64T), (-1, some i32T)]⟩)], 2⟩

def ctxC9 : SccCtx := ⟨kC9bad, false, depGraphOf kC9bad, ["a"]⟩
def sInitC9 : SccSt := ⟨["a"], false, [], initDrv kC9bad tC9⟩
def s1C9 : SccSt :=
  ⟨[], true, [], ⟨[], [("a", some i32T)], ⟨[("g", ⟨"g", none⟩)], 0⟩,
    [(c9Call, "g")], some ["a"]⟩⟩
def s2C9 : SccSt :=
  ⟨[], true, [], ⟨[], [("a", some f64T)],
    ⟨[("g", ⟨"g", none⟩), ("g_0", ⟨"g", some [(0, some i32T), (-1, some f64T)]⟩)], 1⟩,
    [(c9Call, "g_0")], some []⟩⟩
def sC9A : SccSt :=
  ⟨[], true, [], ⟨[], [("a", some i32T)], tC9full, [(c9Call, "g_1")], some []⟩⟩
def sC9B : SccSt :=
  ⟨[], true, [], ⟨[], [("a", some f64T)], tC9full, [(c9Call, "g_0")], some []⟩⟩

theorem sccLoop_next (ctx : SccCtx) (s s' : SccSt)
    (h : sccStep ctx s = .next s') (n : Nat) :
    sccLoop ctx (n + 1) s = sccLoop ctx n s' := by
  simp [sccLoop, h]

theorem c9_cycle : ∀ n, sccLoop ctxC9 n sC9A = .outOfFuel ∧
    sccLoop ctxC9 n sC9B = .outOfFuel := by
  intro n
  induction n with
  | zero => exact ⟨rfl, rfl⟩
  | succ m ih =>
    refine ⟨?_, ?_⟩
    · rw [sccLoop_next ctxC9 sC9A sC9B rfl m]; exact ih.2
    · rw [sccLoop_next ctxC9 sC9B sC9A rfl m]; exact ih.1

theorem c9_loop_diverges : ∀ n, sccLoop ctxC9 n sInitC9 = .outOfFuel := by
  intro n
  match n with
  | 0 => rfl
  | 1 => rfl
  | 2 => rfl
  | 3 => rfl
  | m + 4 =>
    have e1 : sccLoop ctxC9 (m + 4) sInitC9 = sccLoop ctxC9 (m + 3) s1C9 :=
      sccLoop_next ctxC9 sInitC9 s1C9 rfl (m + 3)
    have e2 : sccLoop ctxC9 (m + 3) s1C9 = sccLoop ctxC9 (m + 2) s2C9 :=
      sccLoop_next ctxC9 s1C9 s2C9 rfl (m + 2)
    have e3 : sccLoop ctxC9 (m + 2) s2C9 = sccLoop ctxC9 (m + 1) sC9A :=
      sccLoop_next ctxC9 s2C9 sC9A rfl (m + 1)
    have e4 : sccLoop ctxC9 (m + 1) sC9A = sccLoop ctxC9 m sC9B :=
      sccLoop_next ctxC9 sC9A sC9B rfl m
    rw [e1, e2, e3, e4]
    exact (c9_cycle m).2

/-- The driver exhausts every fuel bound on this input: the embedded
`while` loop never reaches an exit. -/
def driverDiverges (k : Kernel) (t : CallablesTable) (ec : Bool) : Prop :=
  ∀ fuel, inferUnknownTypesForASingleKernel k t ec fuel = .outOfFuel

/-- C9 counterexample: the fixed-point driver does not terminate on every
input kernel.  On `kC9bad` — whose callable re-specializes `g` to a
float64 result for an int32 argument and to an int32 result for a float64
argument — every sweep strictly changes `a`'s recorded type between int32
and float64, each sweep counts as progress, the singleton component has a
self edge, and the queue is refilled forever: the driver state becomes
periodic with period two and the loop runs out of any amount of fuel. -/
theorem claim_C9_counterexample : driverDiverges kC9bad tC9 false := by
  intro fuel
  have hsccs : sccsOf kC9bad = [["a"]] := rfl
  unfold inferUnknownTypesForASingleKernel
  rw [hsccs]
  have hrun : runSccs kC9bad false (depGraphOf kC9bad) fuel [["a"]]
      (initDrv kC9bad tC9) = .outOfFuel := by
    unfold runSccs
    rw [show (⟨["a"], false, [], initDrv kC9bad tC9⟩ : SccSt) = sInitC9 from rfl]
    rw [show (⟨kC9bad, false, depGraphOf kC9bad, ["a"]⟩ : SccCtx) = ctxC9 from rfl]
    rw [c9_loop_diverges fuel]
  rw [hrun]

/-- The mutual-recursion kernel with one externally typed variable:
`a = b + 1`, `b = a + 1`, with `b` already float32. -/
def kS1 : Kernel := { baseK with
  argDict := [("a", none), ("b", some f32T)]
  instructions := [
    ⟨"i1", "a", .sum (.cons (.var "b") (.cons (.constInt 1) .nil))⟩,
    ⟨"i2", "b", .sum (.cons (.var "a") (.cons (.constInt 1) .nil))⟩] }

/-- C9 (amended): the cited scenarios do terminate as described — the
two-variable mutual recursion with one variable externally typed resolves
the other in one pass (both end float32), and the fully-unknown cycle
terminates with the could-not-determine failure when completion is
required — but termination does not hold for every input kernel (see the
counterexample), only when no resolution ever revisits a type for the
same name. -/
theorem claim_C9_scc_termination :
    inferUnknownTypesForASingleKernel kS1 tEmpty true 30 =
      .ok ({ kS1 with argDict := [("a", some f32T), ("b", some f32T)] },
        tEmpty, []) ∧
    inferUnknownTypesForASingleKernel kS2 tEmpty true 30 =
      .err (.couldNotDetermine "a" ["b"]) :=
  ⟨rfl, rfl⟩

end Loopy